import Mathlib

/-!
# Verification of the tclllama generation/session engine

Shallow embedding of `src/generic/tclllama.c` (Ik'nal v7.5).  Text is
modelled at the byte level (`List Nat`, each element `< 256` in practice),
matching the C code's `std::string` byte strings; token ids are `Nat`;
the C `float` configuration fields are modelled as `Rat` (the code only
compares and copies them, never does float-specific arithmetic);
wall-clock telemetry (`t_eval_ms`, `t_gen_ms`) is real time and is not
modelled.  The llama.cpp backend primitives (sample/decode/is_eog/
attributes/token_to_piece) are oracles supplied in a `Backend` record;
everything else mirrors the C source line by line.
-/

/-- Byte list of an ASCII string (for ASCII text this is its UTF-8 byte
sequence, the representation the C code manipulates). -/
def asciiBytes (s : String) : List Nat :=
  s.data.map Char.toNat

/-! ## UTF-8 helpers (`tclllama.c` lines 146-178) -/

/-- `utf8_char_length` (lines 146-153): byte length of a UTF-8 character
derived from the high bits of its first byte; an invalid leading byte is
treated as length 1. -/
def utf8_char_length (b : Nat) : Nat :=
  if b &&& 0x80 = 0x00 then 1
  else if b &&& 0xE0 = 0xC0 then 2
  else if b &&& 0xF0 = 0xE0 then 3
  else if b &&& 0xF8 = 0xF0 then 4
  else 1

/-- The `while (pos < max_pos)` loop of `find_last_utf8_boundary`
(lines 161-175).  `fuel` bounds the iteration count structurally; since
`pos` grows by at least 1 per iteration, `fuel = maxPos` iterations always
suffice, so the fueled loop equals the C loop. -/
def findBoundaryLoop (str : List Nat) (maxPos : Nat) : Nat → Nat → Nat → Nat
  | _pos, lastValid, 0 => lastValid
  | pos, lastValid, fuel + 1 =>
    if pos < maxPos then
      let charLen := utf8_char_length (str.getD pos 0)
      if pos + charLen ≤ maxPos then
        findBoundaryLoop str maxPos (pos + charLen) (pos + charLen) fuel
      else lastValid
    else lastValid

/-- `find_last_utf8_boundary` (lines 155-178): position of the end of the
last complete UTF-8 character at or before `max_pos`, parsing greedily from
the start of the string. -/
def find_last_utf8_boundary (str : List Nat) (maxPos0 : Nat) : Nat :=
  let maxPos := if str.length ≤ maxPos0 then str.length else maxPos0
  findBoundaryLoop str maxPos 0 0 maxPos

/-! ## `std::string::find` (substring search) -/

/-- Candidate-position loop of `std::string::find`: first `i' ≥ i` where
`pat` matches `hay` at `i'`.  `fuel = hay.length + 1 - i` bounds the scan;
the guard `i + pat.length ≤ hay.length` stops it before fuel runs out. -/
def strFindAux (hay pat : List Nat) : Nat → Nat → Option Nat
  | _i, 0 => none
  | i, fuel + 1 =>
    if i + pat.length ≤ hay.length then
      if (hay.drop i).take pat.length = pat then some i
      else strFindAux hay pat (i + 1) fuel
    else none

/-- `hay.find(pat)` of `std::string`: index of the earliest occurrence of
`pat` in `hay`, `none` for `npos`. -/
def strFind (hay pat : List Nat) : Option Nat :=
  strFindAux hay pat 0 (hay.length + 1)

/-- `pat` occurs somewhere inside `hay` (the specification-level meaning of
`std::string::find(pat) != npos`). -/
def occursIn (hay pat : List Nat) : Prop :=
  ∃ s t, hay = s ++ pat ++ t

/-! ## The textual end-of-turn markers (lines 251-255 and 267-269) -/

/-- `"<end_of_turn>"` as bytes. -/
def tag_end_of_turn : List Nat := asciiBytes "<end_of_turn>"

/-- `"<start_of_turn>"` as bytes. -/
def tag_start_of_turn : List Nat := asciiBytes "<start_of_turn>"

/-- `"<|im_end|>"` as bytes. -/
def tag_im_end : List Nat := asciiBytes "<|im_end|>"

/-- `"<|eot_id|>"` as bytes. -/
def tag_eot_id : List Nat := asciiBytes "<|eot_id|>"

/-- `"<|endoftext|>"` as bytes. -/
def tag_endoftext : List Nat := asciiBytes "<|endoftext|>"

/-- The `tags[]` array of the tier-3 scan, in its fixed order (lines
267-270). -/
def tagsList : List (List Nat) :=
  [tag_end_of_turn, tag_start_of_turn, tag_im_end, tag_eot_id, tag_endoftext]

/-- `"<end"` of the `partial_tags[]` array (line 347). -/
def ptag_end : List Nat := asciiBytes "<end"

/-- `"<start"` of the `partial_tags[]` array (line 347). -/
def ptag_start : List Nat := asciiBytes "<start"

/-- `"<|im"` of the `partial_tags[]` array (line 347). -/
def ptag_im : List Nat := asciiBytes "<|im"

/-- `"<|eot"` of the `partial_tags[]` array (line 347). -/
def ptag_eot : List Nat := asciiBytes "<|eot"

/-! ## Session state (`LlamaState`, lines 22-51, and `set_defaults`,
lines 54-77) -/

/-- The scalar fields of the C `LlamaState` (lines 22-51).  Handles
(`model`, `ctx`, `sampler`, `vocab`) live in the backend oracle; the
wall-clock telemetry doubles (`t_eval_ms`, `t_gen_ms`) and the `verbose`
debug flag are omitted (real time / stderr logging only). -/
structure LlamaState where
  temp : Rat
  topK : Int
  topP : Rat
  minP : Rat
  repeatPenalty : Rat
  repeatLastN : Int
  presencePenalty : Rat
  frequencyPenalty : Rat
  mirostat : Int
  mirostatTau : Rat
  mirostatEta : Rat
  seed : Int
  nPredict : Int
  nCtx : Nat
  nPast : Nat
  nEval : Nat
  nGen : Nat
  deriving DecidableEq

/-- `set_defaults` (lines 54-77) with `n_ctx = 4096` as in the struct
initialisation path of `llama::init`. -/
def defaultState : LlamaState where
  temp := 4/5
  topK := 40
  topP := 19/20
  minP := 1/20
  repeatPenalty := 11/10
  repeatLastN := 64
  presencePenalty := 0
  frequencyPenalty := 0
  mirostat := 0
  mirostatTau := 5
  mirostatEta := 1/10
  seed := -1
  nPredict := -1
  nCtx := 4096
  nPast := 0
  nEval := 0
  nGen := 0

/-! ## Options record and `apply_options` (lines 80-134) -/

/-- The recognized option keys of `apply_options` (lines 94-104).  A field
is `none` when the key is absent from the Tcl dict (or its value fails to
parse as a number), in which case the session's current value is left
untouched. -/
structure GenOptions where
  temperature : Option Rat := none
  top_k : Option Int := none
  top_p : Option Rat := none
  min_p : Option Rat := none
  repeat_penalty : Option Rat := none
  repeat_last_n : Option Int := none
  num_predict : Option Int := none
  mirostat : Option Int := none
  mirostat_tau : Option Rat := none
  mirostat_eta : Option Rat := none
  seed : Option Int := none

/-- The `GET_D_FLOAT` / `GET_D_INT` extraction block (lines 94-104):
each present option overwrites the corresponding state field. -/
def updateFields (o : GenOptions) (s : LlamaState) : LlamaState :=
  { s with
    temp := o.temperature.getD s.temp
    topK := o.top_k.getD s.topK
    topP := o.top_p.getD s.topP
    minP := o.min_p.getD s.minP
    repeatPenalty := o.repeat_penalty.getD s.repeatPenalty
    repeatLastN := o.repeat_last_n.getD s.repeatLastN
    nPredict := o.num_predict.getD s.nPredict
    mirostat := o.mirostat.getD s.mirostat
    mirostatTau := o.mirostat_tau.getD s.mirostatTau
    mirostatEta := o.mirostat_eta.getD s.mirostatEta
    seed := o.seed.getD s.seed }

/-- Clamp of `temperature` (lines 107-108): two sequential range checks. -/
def clampTemp (x : Rat) : Rat :=
  let x1 := if x < 0 then 0 else x
  if 2 < x1 then 2 else x1

/-- Clamp of `top_k` (line 110). -/
def clampTopK (k : Int) : Int :=
  if k < 1 then 1 else k

/-- Clamp of `top_p` / `min_p` (lines 112-116). -/
def clampUnit (x : Rat) : Rat :=
  let x1 := if x < 0 then 0 else x
  if 1 < x1 then 1 else x1

/-- Reset of `repeat_penalty` (line 118): a negative value becomes 1.0. -/
def clampRepeat (x : Rat) : Rat :=
  if x < 0 then 1 else x

/-- Reset of `n_predict` (line 120): a value below -1 becomes -1. -/
def clampNPredict (n : Int) : Int :=
  if n < -1 then -1 else n

/-- The range-validation block of `apply_options` (lines 106-121). -/
def clampFields (s : LlamaState) : LlamaState :=
  { s with
    temp := clampTemp s.temp
    topK := clampTopK s.topK
    topP := clampUnit s.topP
    minP := clampUnit s.minP
    repeatPenalty := clampRepeat s.repeatPenalty
    nPredict := clampNPredict s.nPredict }

/-- The stages `apply_options` installs into the sampler chain via
`llama_sampler_chain_add` (lines 126-133). -/
inductive Stage where
  | temp
  | topK
  | topP
  | minP
  | penalties
  | mirostatV1
  | mirostatV2
  | dist
  deriving DecidableEq

/-- The chain-construction block of `apply_options` (lines 123-133): the
old chain is freed and a new one is built by adding stages in program
order. -/
def buildChain (s : LlamaState) : List Stage :=
  [Stage.temp, Stage.topK, Stage.topP, Stage.minP, Stage.penalties]
    ++ (if s.mirostat = 1 then [Stage.mirostatV1]
        else if s.mirostat = 2 then [Stage.mirostatV2]
        else [])
    ++ [Stage.dist]

/-- `apply_options` (lines 80-134): when an options dict is supplied, the
recognized fields are extracted and the ranges clamped (lines 93-121);
with or without a dict, the sampler chain is rebuilt from the (possibly
updated) state (lines 123-133).  Returns the updated state and the new
chain. -/
def apply_options (o : Option GenOptions) (s : LlamaState) : LlamaState × List Stage :=
  let s' := match o with
    | some opts => clampFields (updateFields opts s)
    | none => s
  (s', buildChain s')

/-! ## The generation loop `run_inference` (lines 181-375) -/

/-- The backend capability surface used by `run_inference`, plus the
per-call inputs (callback presence/behaviour and manual stop ids).
`sample k` is the token the sampler chain yields at the k-th sampling call
of the loop; `decodeOk pos` is whether `llama_decode` of the single-token
batch at position `pos` succeeds; `cbOk i` is whether the i-th invocation
of the Tcl callback returns `TCL_OK`. -/
structure Backend where
  sample : Nat → Nat
  isEog : Nat → Bool
  isControl : Nat → Bool
  piece : Nat → List Nat
  decodeOk : Nat → Bool
  useCb : Bool
  cbOk : Nat → Bool
  stopIds : List Nat

/-- Why the generation call ended (instrumentation for stating theorems;
in C this is which `break`/`return` ran). -/
inductive StopReason where
  | budget
  | ctxFull
  | eog
  | control
  | stopId
  | textTag
  | decodeFail
  | cbFail
  deriving DecidableEq

/-- Observable outcome of `run_inference`: `ok` is `TCL_OK` vs `TCL_ERROR`;
`sink` is the ordered list of text fragments handed to the observer (the
`resp` DString appends, which coincide with the callback invocations);
`state` the session state after the call; `accepted` the loop's `p_cnt`
(tokens decoded back into context). -/
structure GenResult where
  ok : Bool
  stop : StopReason
  sink : List (List Nat)
  state : LlamaState
  accepted : Nat
  deriving DecidableEq

/-- Outcome of the per-token text-handling block (lines 233-327):
`brk` = the tier-3 scan fired and the loop breaks (buffer keeps the tag),
`fail` = the callback failed at the mid-loop flush and the call errors out,
`cont` = fall through to the decode step. -/
inductive TextOut where
  | brk (buffer : List Nat) (sink : List (List Nat)) (cbCount : Nat)
  | fail (sink : List (List Nat)) (cbCount : Nat)
  | cont (buffer : List Nat) (sink : List (List Nat)) (cbCount : Nat)

/-- Callback invocation counter bump: the callback is only invoked when a
callback name was supplied. -/
def cbInc (B : Backend) (c : Nat) : Nat :=
  if B.useCb then c + 1 else c

/-- The tag-identification loop of the tier-3 scan (lines 272-279): walk
`tags[]` in array order and return the find-position of the first tag that
occurs in the buffer, together with that tag. -/
def scanTags : List (List Nat) → List Nat → Option (Nat × List Nat)
  | [], _ => none
  | t :: ts, buf =>
    match strFind buf t with
    | some p => some (p, t)
    | none => scanTags ts buf

/-- The tier-3 emission (lines 262-299): find the first tag of `tags[]`
(in array order) present in the buffer, and emit the UTF-8-safe prefix
strictly before it, if that prefix is nonempty. -/
def tier3Emit (buf : List Nat) : Option (List Nat) :=
  match scanTags tagsList buf with
  | some (tagPos, _) =>
    let beforeTag := buf.take tagPos
    if beforeTag.length ≠ 0 then
      let safeLen := find_last_utf8_boundary beforeTag beforeTag.length
      if 0 < safeLen then some (beforeTag.take safeLen) else none
    else none
  | none => none

/-- The per-token text-handling block of the loop body (lines 233-327):
token-to-piece conversion guard (`n > 0 && n < 512`), buffer append and
50-byte window trim (lines 240-245), the tier-3 textual scan (lines
247-301), and the UTF-8-safe streaming flush with its 20-byte margin
(lines 303-326).  Only the mid-loop flush checks the callback's return
value; the tier-3 emission ignores it (line 295). -/
def textPhase (B : Backend) (pc buffer : List Nat) (sink : List (List Nat))
    (cbCount : Nat) : TextOut :=
  if 0 < pc.length ∧ pc.length < 512 then
    let buffer1 := buffer ++ pc
    let buffer2 := if 50 < buffer1.length then buffer1.drop (buffer1.length - 50)
                   else buffer1
    let foundTag := (strFind buffer2 tag_end_of_turn).isSome
                 || (strFind buffer2 tag_start_of_turn).isSome
                 || (strFind buffer2 tag_im_end).isSome
                 || (strFind buffer2 tag_eot_id).isSome
                 || (strFind buffer2 tag_endoftext).isSome
    if foundTag then
      match tier3Emit buffer2 with
      | some frag => TextOut.brk buffer2 (sink ++ [frag]) (cbInc B cbCount)
      | none => TextOut.brk buffer2 sink cbCount
    else
      if 20 < buffer2.length then
        let safeLen := find_last_utf8_boundary buffer2 (buffer2.length - 20)
        if 0 < safeLen then
          let safePart := buffer2.take safeLen
          if B.useCb && !(B.cbOk cbCount) then
            TextOut.fail (sink ++ [safePart]) (cbCount + 1)
          else
            TextOut.cont (buffer2.drop safeLen) (sink ++ [safePart]) (cbInc B cbCount)
        else TextOut.cont buffer2 sink cbCount
      else TextOut.cont buffer2 sink cbCount
  else TextOut.cont buffer sink cbCount

/-- The final flush after the loop (lines 343-366): a non-empty leftover
buffer is emitted only when it contains none of the four `partial_tags[]`
fragments; the callback's return value is ignored here (line 363).  Also
records `n_gen = p_cnt` (line 370) — the C code only reaches this
assignment on the `TCL_OK` paths. -/
def finalFlush (s : LlamaState) (buffer : List Nat) (sink : List (List Nat))
    (pCnt : Nat) (reason : StopReason) : GenResult :=
  let sinkF :=
    if 0 < buffer.length then
      let hasPartial := (strFind buffer ptag_end).isSome
                     || (strFind buffer ptag_start).isSome
                     || (strFind buffer ptag_im).isSome
                     || (strFind buffer ptag_eot).isSome
      if !hasPartial then sink ++ [buffer] else sink
    else sink
  { ok := true, stop := reason, sink := sinkF,
    state := { s with nGen := pCnt }, accepted := pCnt }

/-- The `while (p_cnt < max_tokens)` loop of `run_inference`
(lines 195-341), with `fuel = max_tokens - p_cnt` as the structural
recursion measure (each completed iteration increments `p_cnt` once).
Per iteration: context-capacity check (line 196), sample (198-199),
tier-1a/1b official control-token shield (218-221), tier-2 manual stop-id
shield (224-231), text handling (`textPhase`), then the single-token
decode with `n_past++` before the `llama_decode` call (329-340).  A decode
failure or a mid-loop callback failure returns `TCL_ERROR` immediately,
skipping the final flush. -/
def genLoop (B : Backend) : Nat → LlamaState → List Nat → List (List Nat) → Nat → Nat → GenResult
  | 0, s, buffer, sink, _cbCount, pCnt =>
    finalFlush s buffer sink pCnt StopReason.budget
  | fuel + 1, s, buffer, sink, cbCount, pCnt =>
    if s.nCtx ≤ s.nPast then finalFlush s buffer sink pCnt StopReason.ctxFull
    else if B.isEog (B.sample pCnt) then finalFlush s buffer sink pCnt StopReason.eog
    else if B.isControl (B.sample pCnt) then finalFlush s buffer sink pCnt StopReason.control
    else if B.stopIds.contains (B.sample pCnt) then finalFlush s buffer sink pCnt StopReason.stopId
    else
      match textPhase B (B.piece (B.sample pCnt)) buffer sink cbCount with
      | TextOut.fail sinkE _cb =>
        { ok := false, stop := StopReason.cbFail, sink := sinkE,
          state := s, accepted := pCnt }
      | TextOut.brk bufferB sinkB _cb =>
        finalFlush s bufferB sinkB pCnt StopReason.textTag
      | TextOut.cont bufferC sinkC cbC =>
        if B.decodeOk s.nPast then
          genLoop B fuel { s with nPast := s.nPast + 1 } bufferC sinkC cbC (pCnt + 1)
        else { ok := false, stop := StopReason.decodeFail, sink := sinkC,
               state := { s with nPast := s.nPast + 1 }, accepted := pCnt }

/-- `run_inference` (lines 181-375): token budget `n_predict` when
positive, else the hard default cap 4096 (line 192), then the loop from an
empty buffer. -/
def run_inference (B : Backend) (s : LlamaState) : GenResult :=
  let maxTokens : Nat := if 0 < s.nPredict then s.nPredict.toNat else 4096
  genLoop B maxTokens s [] [] 0 0

/-! ## Prompt ingestion (`Llama_Generate_Cmd`, lines 378-475) -/

/-- The prompt construction of `Llama_Generate_Cmd` (lines 428-434): a
supplied non-empty system message is prepended with a blank line only on a
fresh context (`n_past == 0`). -/
def build_full_prompt (system_msg : Option String) (n_past : Nat) (prompt : String) : String :=
  match system_msg with
  | some sm => if 0 < sm.length ∧ n_past = 0 then sm ++ "\n\n" ++ prompt else prompt
  | none => prompt

/-- The batched ingestion decode of `Llama_Generate_Cmd` (lines 446-472):
context-overflow check before anything is submitted, then the
`fill_batch`/`n_past++` loop over all `n_tok` tokens, then one
`llama_decode` call; on success `n_eval` is recorded.  `decodeOkB` is the
backend decode verdict for this batch; the returned Bool is `TCL_OK`. -/
def ingest (decodeOkB : Bool) (nTok : Nat) (s : LlamaState) : Bool × LlamaState :=
  if s.nCtx ≤ s.nPast + nTok then (false, s)
  else
    let s1 := { s with nPast := s.nPast + nTok }
    if decodeOkB then (true, { s1 with nEval := nTok }) else (false, s1)

/-! ## Specification-side definitions (used only to state properties, never
by the embedded code) -/

/-- Modelled from the spec: the emission of a pending prefix "after
trimming to the last complete multi-byte character boundary at or before
its end — partial trailing characters are dropped, not emitted", nothing
emitted when nothing survives the trim.  Stated for comparison with the
code's tier-3 emission. -/
def utf8SafeEmit (pre : List Nat) : Option (List Nat) :=
  if pre.length ≠ 0 then
    let safeLen := find_last_utf8_boundary pre pre.length
    if 0 < safeLen then some (pre.take safeLen) else none
  else none

/-- Modelled from the spec: structural UTF-8 validity of a byte string —
each character is a lead byte whose high bits give its length, followed by
the right number of continuation bytes (`10xxxxxx`).  A fragment that
starts with a continuation byte, or cuts a character short, is invalid. -/
def validUtf8 : List Nat → Bool
  | [] => true
  | b :: rest =>
    if b &&& 0x80 = 0x00 then validUtf8 rest
    else if b &&& 0xE0 = 0xC0 then
      match rest with
      | c1 :: r => (c1 &&& 0xC0 = 0x80) && validUtf8 r
      | [] => false
    else if b &&& 0xF0 = 0xE0 then
      match rest with
      | c1 :: c2 :: r => (c1 &&& 0xC0 = 0x80) && (c2 &&& 0xC0 = 0x80) && validUtf8 r
      | _ => false
    else if b &&& 0xF8 = 0xF0 then
      match rest with
      | c1 :: c2 :: c3 :: r =>
        (c1 &&& 0xC0 = 0x80) && (c2 &&& 0xC0 = 0x80) && (c3 &&& 0xC0 = 0x80) && validUtf8 r
      | _ => false
    else false

/-! ## Lemmas about the substring search -/

theorem strFindAux_some {hay pat : List Nat} :
    ∀ {fuel i p : Nat}, strFindAux hay pat i fuel = some p →
      i ≤ p ∧ p + pat.length ≤ hay.length ∧ (hay.drop p).take pat.length = pat ∧
        ∀ q, i ≤ q → q < p → (hay.drop q).take pat.length ≠ pat := by
  intro fuel
  induction fuel with
  | zero => intro i p h; simp [strFindAux] at h
  | succ n ih =>
    intro i p h
    simp only [strFindAux] at h
    by_cases hle : i + pat.length ≤ hay.length
    · rw [if_pos hle] at h
      by_cases heq : (hay.drop i).take pat.length = pat
      · rw [if_pos heq] at h
        cases h
        exact ⟨le_refl _, hle, heq, fun q hq hq' => absurd (lt_of_le_of_lt hq hq') (lt_irrefl _)⟩
      · rw [if_neg heq] at h
        obtain ⟨h1, h2, h3, h4⟩ := ih h
        refine ⟨by omega, h2, h3, fun q hq hq' => ?_⟩
        rcases Nat.eq_or_lt_of_le hq with rfl | hlt
        · exact heq
        · exact h4 q hlt hq'
    · rw [if_neg hle] at h
      exact Option.noConfusion h

theorem strFindAux_none {hay pat : List Nat} :
    ∀ {fuel i : Nat}, strFindAux hay pat i fuel = none →
      hay.length + 1 ≤ i + fuel →
      ∀ q, i ≤ q → q + pat.length ≤ hay.length → (hay.drop q).take pat.length ≠ pat := by
  intro fuel
  induction fuel with
  | zero => intro i _ hfl q hq hql; exfalso; omega
  | succ n ih =>
    intro i h hfl q hq hql
    simp only [strFindAux] at h
    by_cases hle : i + pat.length ≤ hay.length
    · rw [if_pos hle] at h
      by_cases heq : (hay.drop i).take pat.length = pat
      · rw [if_pos heq] at h; exact Option.noConfusion h
      · rw [if_neg heq] at h
        rcases Nat.eq_or_lt_of_le hq with rfl | hlt
        · exact heq
        · exact ih h (by omega) q hlt hql
    · exfalso; omega

theorem occursIn_iff {hay pat : List Nat} :
    occursIn hay pat ↔ (strFind hay pat).isSome = true := by
  constructor
  · rintro ⟨s, t, rfl⟩
    cases hf : strFind (s ++ pat ++ t) pat with
    | some p => simp
    | none =>
      exfalso
      have hlen : s.length + pat.length ≤ (s ++ pat ++ t).length := by
        simp [List.length_append]
      have hdrop : ((s ++ pat ++ t).drop s.length).take pat.length = pat := by
        rw [List.append_assoc, List.drop_left, List.take_left]
      exact strFindAux_none hf (by omega) s.length (Nat.zero_le _) hlen hdrop
  · intro h
    cases hf : strFind hay pat with
    | none => rw [hf] at h; simp at h
    | some p =>
      obtain ⟨-, h2, h3, -⟩ := strFindAux_some hf
      refine ⟨hay.take p, hay.drop (p + pat.length), ?_⟩
      have hsplit : hay = hay.take p ++ hay.drop p := (List.take_append_drop p hay).symm
      have hdrop : hay.drop p = pat ++ hay.drop (p + pat.length) := by
        conv_lhs => rw [← List.take_append_drop pat.length (hay.drop p)]
        rw [h3, List.drop_drop, Nat.add_comm]
      rw [List.append_assoc, ← hdrop]
      exact hsplit

theorem strFind_eq_none_of_not_occursIn {hay pat : List Nat}
    (h : ¬ occursIn hay pat) : strFind hay pat = none := by
  cases hf : strFind hay pat with
  | none => rfl
  | some p => exact absurd (occursIn_iff.mpr (by simp [hf])) h

/-! ## Invariants of the generation loop -/

theorem finalFlush_accepted (s : LlamaState) (buffer : List Nat)
    (sink : List (List Nat)) (pCnt : Nat) (reason : StopReason) :
    (finalFlush s buffer sink pCnt reason).accepted = pCnt := by
  simp [finalFlush]

theorem finalFlush_ok (s : LlamaState) (buffer : List Nat)
    (sink : List (List Nat)) (pCnt : Nat) (reason : StopReason) :
    (finalFlush s buffer sink pCnt reason).ok = true := by
  simp [finalFlush]

theorem finalFlush_stop (s : LlamaState) (buffer : List Nat)
    (sink : List (List Nat)) (pCnt : Nat) (reason : StopReason) :
    (finalFlush s buffer sink pCnt reason).stop = reason := by
  simp [finalFlush]

theorem finalFlush_nPast (s : LlamaState) (buffer : List Nat)
    (sink : List (List Nat)) (pCnt : Nat) (reason : StopReason) :
    (finalFlush s buffer sink pCnt reason).state.nPast = s.nPast := by
  simp [finalFlush]

theorem genLoop_accepted_le_fuel (B : Backend) :
    ∀ (fuel : Nat) (s : LlamaState) (buffer : List Nat) (sink : List (List Nat))
      (cb p : Nat), (genLoop B fuel s buffer sink cb p).accepted ≤ p + fuel := by
  intro fuel
  induction fuel with
  | zero =>
    intro s buffer sink cb p
    simp [genLoop, finalFlush_accepted]
  | succ n ih =>
    intro s buffer sink cb p
    simp only [genLoop]
    by_cases h1 : s.nCtx ≤ s.nPast
    · rw [if_pos h1, finalFlush_accepted]; omega
    · rw [if_neg h1]
      by_cases h2 : B.isEog (B.sample p) = true
      · rw [if_pos h2, finalFlush_accepted]; omega
      · rw [if_neg h2]
        by_cases h3 : B.isControl (B.sample p) = true
        · rw [if_pos h3, finalFlush_accepted]; omega
        · rw [if_neg h3]
          by_cases h4 : B.stopIds.contains (B.sample p) = true
          · rw [if_pos h4, finalFlush_accepted]; omega
          · rw [if_neg h4]
            split
            · exact Nat.le_add_right p (n + 1)
            · rw [finalFlush_accepted]; omega
            · split
              · exact le_trans (ih _ _ _ _ _) (by omega)
              · exact Nat.le_add_right p (n + 1)

theorem genLoop_accepted_le_ctx (B : Backend) :
    ∀ (fuel : Nat) (s : LlamaState) (buffer : List Nat) (sink : List (List Nat))
      (cb p : Nat), (genLoop B fuel s buffer sink cb p).accepted ≤ p + (s.nCtx - s.nPast) := by
  intro fuel
  induction fuel with
  | zero =>
    intro s buffer sink cb p
    simp [genLoop, finalFlush_accepted]
  | succ n ih =>
    intro s buffer sink cb p
    simp only [genLoop]
    by_cases h1 : s.nCtx ≤ s.nPast
    · rw [if_pos h1, finalFlush_accepted]; omega
    · rw [if_neg h1]
      by_cases h2 : B.isEog (B.sample p) = true
      · rw [if_pos h2, finalFlush_accepted]; omega
      · rw [if_neg h2]
        by_cases h3 : B.isControl (B.sample p) = true
        · rw [if_pos h3, finalFlush_accepted]; omega
        · rw [if_neg h3]
          by_cases h4 : B.stopIds.contains (B.sample p) = true
          · rw [if_pos h4, finalFlush_accepted]; omega
          · rw [if_neg h4]
            split
            · exact Nat.le_add_right p _
            · rw [finalFlush_accepted]; omega
            · rename_i bufC sinkC cbC heq
              split
              · have h : (genLoop B n { s with nPast := s.nPast + 1 } bufC sinkC cbC
                    (p + 1)).accepted ≤ (p + 1) + (s.nCtx - (s.nPast + 1)) :=
                  ih _ _ _ _ _
                exact le_trans h (by omega)
              · exact Nat.le_add_right p _

theorem genLoop_nPast (B : Backend) :
    ∀ (fuel : Nat) (s : LlamaState) (buffer : List Nat) (sink : List (List Nat))
      (cb p : Nat),
      p ≤ (genLoop B fuel s buffer sink cb p).accepted ∧
      (genLoop B fuel s buffer sink cb p).state.nPast
        = s.nPast + ((genLoop B fuel s buffer sink cb p).accepted - p)
          + (if (genLoop B fuel s buffer sink cb p).stop = StopReason.decodeFail
             then 1 else 0) := by
  intro fuel
  induction fuel with
  | zero =>
    intro s buffer sink cb p
    simp [genLoop, finalFlush]
  | succ n ih =>
    intro s buffer sink cb p
    simp only [genLoop]
    by_cases h1 : s.nCtx ≤ s.nPast
    · simp only [if_pos h1]; simp [finalFlush]
    · simp only [if_neg h1]
      by_cases h2 : B.isEog (B.sample p) = true
      · simp only [if_pos h2]; simp [finalFlush]
      · simp only [if_neg h2]
        by_cases h3 : B.isControl (B.sample p) = true
        · simp only [if_pos h3]; simp [finalFlush]
        · simp only [if_neg h3]
          by_cases h4 : B.stopIds.contains (B.sample p) = true
          · simp only [if_pos h4]; simp [finalFlush]
          · simp only [if_neg h4]
            split
            · simp
            · simp [finalFlush]
            · rename_i bufC sinkC cbC heq
              by_cases h5 : B.decodeOk s.nPast = true
              · simp only [if_pos h5]
                have h : p + 1 ≤ (genLoop B n { s with nPast := s.nPast + 1 } bufC sinkC
                      cbC (p + 1)).accepted ∧
                    (genLoop B n { s with nPast := s.nPast + 1 } bufC sinkC cbC
                      (p + 1)).state.nPast
                      = (s.nPast + 1) + ((genLoop B n { s with nPast := s.nPast + 1 }
                          bufC sinkC cbC (p + 1)).accepted - (p + 1))
                        + (if (genLoop B n { s with nPast := s.nPast + 1 } bufC sinkC cbC
                              (p + 1)).stop = StopReason.decodeFail then 1 else 0) :=
                  ih _ _ _ _ _
                obtain ⟨e2, e1⟩ := h
                refine ⟨by omega, ?_⟩
                by_cases hd : (genLoop B n { s with nPast := s.nPast + 1 } bufC sinkC cbC
                    (p + 1)).stop = StopReason.decodeFail
                · rw [if_pos hd] at e1 ⊢; omega
                · rw [if_neg hd] at e1 ⊢; omega
              · simp only [if_neg h5]
                simp

theorem genLoop_ok_iff (B : Backend) :
    ∀ (fuel : Nat) (s : LlamaState) (buffer : List Nat) (sink : List (List Nat))
      (cb p : Nat),
      (genLoop B fuel s buffer sink cb p).ok = false ↔
        ((genLoop B fuel s buffer sink cb p).stop = StopReason.cbFail ∨
         (genLoop B fuel s buffer sink cb p).stop = StopReason.decodeFail) := by
  intro fuel
  induction fuel with
  | zero =>
    intro s buffer sink cb p
    simp [genLoop, finalFlush]
  | succ n ih =>
    intro s buffer sink cb p
    simp only [genLoop]
    by_cases h1 : s.nCtx ≤ s.nPast
    · rw [if_pos h1]; simp [finalFlush]
    · rw [if_neg h1]
      by_cases h2 : B.isEog (B.sample p) = true
      · rw [if_pos h2]; simp [finalFlush]
      · rw [if_neg h2]
        by_cases h3 : B.isControl (B.sample p) = true
        · rw [if_pos h3]; simp [finalFlush]
        · rw [if_neg h3]
          by_cases h4 : B.stopIds.contains (B.sample p) = true
          · rw [if_pos h4]; simp [finalFlush]
          · rw [if_neg h4]
            split
            · simp
            · simp [finalFlush]
            · split
              · exact ih _ _ _ _ _
              · simp

/-! ## Lemmas about the clamps -/

theorem clampTemp_mem (x : Rat) : 0 ≤ clampTemp x ∧ clampTemp x ≤ 2 := by
  unfold clampTemp
  by_cases h1 : x < 0
  · rw [if_pos h1]
    norm_num
  · rw [if_neg h1]
    by_cases h2 : 2 < x
    · rw [if_pos h2]; norm_num
    · rw [if_neg h2]
      exact ⟨le_of_not_lt h1, le_of_not_lt h2⟩

theorem clampTopK_mem (k : Int) : 1 ≤ clampTopK k := by
  unfold clampTopK
  by_cases h : k < 1
  · rw [if_pos h]
  · rw [if_neg h]; omega

theorem clampUnit_mem (x : Rat) : 0 ≤ clampUnit x ∧ clampUnit x ≤ 1 := by
  unfold clampUnit
  by_cases h1 : x < 0
  · rw [if_pos h1]; norm_num
  · rw [if_neg h1]
    by_cases h2 : 1 < x
    · rw [if_pos h2]; norm_num
    · rw [if_neg h2]
      exact ⟨le_of_not_lt h1, le_of_not_lt h2⟩

theorem clampRepeat_mem (x : Rat) : 0 ≤ clampRepeat x := by
  unfold clampRepeat
  by_cases h : x < 0
  · rw [if_pos h]; norm_num
  · rw [if_neg h]; exact le_of_not_lt h

theorem clampNPredict_mem (n : Int) : -1 ≤ clampNPredict n := by
  unfold clampNPredict
  by_cases h : n < -1
  · rw [if_pos h]
  · rw [if_neg h]; omega

/-! ## Concrete synthetic backends for the run-level theorems -/

/-- A plain backend: token k's piece is `pieces[k]`, nothing is an official
control token, no manual stop ids, decode always succeeds, no callback. -/
def mkBackend (pieces : List (List Nat)) : Backend where
  sample := fun k => k
  isEog := fun _ => false
  isControl := fun _ => false
  piece := fun k => pieces.getD k []
  decodeOk := fun _ => true
  useCb := false
  cbOk := fun _ => true
  stopIds := []

/-- The marker `"<end_of_turn>"` fragmented across 5 separate token pieces. -/
def c1Pieces : List (List Nat) :=
  [asciiBytes "<", asciiBytes "end", asciiBytes "_of", asciiBytes "_turn", asciiBytes ">"]

/-- The marker `"<end_of_turn>"` fragmented across its 13 single characters. -/
def c1Pieces13 : List (List Nat) :=
  tag_end_of_turn.map (fun b => [b])

/-! ## Claim theorems -/

/-- C1: for a generation run whose successive sampled token pieces spell out
the marker `"<end_of_turn>"` fragmented across 5 separate tokens (and,
equally, across 13 separate single-character tokens — a 13-character marker
cannot occupy 5 single-character pieces, so both readings of the scenario
are covered), the loop terminates via the tier-3 textual scan, no byte of
the marker is ever delivered to the sink (neither at a mid-loop flush nor
at the final flush — the sink stays empty), and the token that completed
the marker is not decoded back into context: position advances only for
the tokens before it. -/
theorem c1_fragmented_marker_run :
    (c1Pieces.flatten = tag_end_of_turn ∧ c1Pieces.length = 5)
    ∧ (run_inference (mkBackend c1Pieces) { defaultState with nPredict := 8 }).ok = true
    ∧ (run_inference (mkBackend c1Pieces) { defaultState with nPredict := 8 }).stop
        = StopReason.textTag
    ∧ (run_inference (mkBackend c1Pieces) { defaultState with nPredict := 8 }).sink = []
    ∧ (run_inference (mkBackend c1Pieces) { defaultState with nPredict := 8 }).state.nPast = 4
    ∧ (run_inference (mkBackend c1Pieces) { defaultState with nPredict := 8 }).accepted = 4
    ∧ (c1Pieces13.flatten = tag_end_of_turn ∧ ∀ pc ∈ c1Pieces13, pc.length = 1)
    ∧ (run_inference (mkBackend c1Pieces13) { defaultState with nPredict := 16 }).stop
        = StopReason.textTag
    ∧ (run_inference (mkBackend c1Pieces13) { defaultState with nPredict := 16 }).sink = []
    ∧ (run_inference (mkBackend c1Pieces13) { defaultState with nPredict := 16 }).state.nPast
        = 12 := by
  decide

/-- C2 counterexample: a buffer holding `"<|im_end|>"` at position 0 and
`"<end_of_turn>"` at position 12 (reachable in one generated token).  The
claim demands that nothing at or after the earliest marker occurrence
(position 0) be emitted; the code scans `tags[]` in array order, finds
`"<end_of_turn>"` first, and emits the 12-byte prefix `"<|im_end|>ab"`,
which contains the whole earlier-positioned marker. -/
theorem c2_counterexample :
    strFind (asciiBytes "<|im_end|>ab<end_of_turn>") tag_im_end = some 0
    ∧ strFind (asciiBytes "<|im_end|>ab<end_of_turn>") tag_end_of_turn = some 12
    ∧ (run_inference (mkBackend [asciiBytes "<|im_end|>ab<end_of_turn>"])
        { defaultState with nPredict := 8 }).stop = StopReason.textTag
    ∧ (run_inference (mkBackend [asciiBytes "<|im_end|>ab<end_of_turn>"])
        { defaultState with nPredict := 8 }).sink = [asciiBytes "<|im_end|>ab"]
    ∧ asciiBytes "<|im_end|>ab" = tag_im_end ++ asciiBytes "ab" := by
  decide

/-- C3 evaluated at the failing input: one sampled token whose 54-byte
piece is `"aa"` ++ U+1F600 (`F0 9F 98 80`) ++ 48 × `"a"` — valid UTF-8 as
a whole.  The 50-byte buffer trim (lines 243-245) cuts the 4-byte
character after its first two bytes, and the mid-loop margin flush then
delivers a fragment that begins with the two dangling continuation bytes
`98 80`: an invalid byte sequence reaches the sink even though every
token piece concatenation was valid UTF-8. -/
theorem c3_trim_utf8_bug :
    validUtf8 ([97, 97, 0xF0, 0x9F, 0x98, 0x80] ++ List.replicate 48 97) = true
    ∧ (run_inference (mkBackend [[97, 97, 0xF0, 0x9F, 0x98, 0x80] ++ List.replicate 48 97])
        { defaultState with nPredict := 1 }).ok = true
    ∧ (run_inference (mkBackend [[97, 97, 0xF0, 0x9F, 0x98, 0x80] ++ List.replicate 48 97])
        { defaultState with nPredict := 1 }).sink
        = [[0x98, 0x80] ++ List.replicate 28 97, List.replicate 20 97]
    ∧ validUtf8 ([0x98, 0x80] ++ List.replicate 28 97) = false := by
  decide

/-- C4 counterexample: a generation step whose decode fails.  The claim
says the position field is left unchanged from its value before the failed
batch was submitted (7); the code increments `n_past` before calling
`llama_decode` (lines 330-333), so after the failure the position is 8. -/
theorem c4_counterexample :
    (run_inference { mkBackend [[97]] with decodeOk := fun _ => false }
        { defaultState with nPast := 7, nPredict := 8 }).ok = false
    ∧ (run_inference { mkBackend [[97]] with decodeOk := fun _ => false }
        { defaultState with nPast := 7, nPredict := 8 }).stop = StopReason.decodeFail
    ∧ ({ defaultState with nPast := 7, nPredict := 8 } : LlamaState).nPast = 7
    ∧ (run_inference { mkBackend [[97]] with decodeOk := fun _ => false }
        { defaultState with nPast := 7, nPredict := 8 }).state.nPast = 8 := by
  decide

/-- C5 counterexample: the chain `apply_options` actually builds (here for
the default configuration, mirostat off) adds the temperature stage first
and the penalty stage fifth (lines 126-133), not the claimed order with
the penalty stage first. -/
theorem c5_counterexample :
    (apply_options none defaultState).2
      = [Stage.temp, Stage.topK, Stage.topP, Stage.minP, Stage.penalties, Stage.dist]
    ∧ (apply_options none defaultState).2
      ≠ [Stage.penalties, Stage.topK, Stage.topP, Stage.minP, Stage.temp, Stage.dist] := by
  decide

/-- Every rebuild goes through `buildChain` on the resulting state. -/
theorem apply_options_chain (o : Option GenOptions) (s : LlamaState) :
    (apply_options o s).2 = buildChain (apply_options o s).1 := by
  cases o <;> rfl

/-- C5 amended: every rebuild of the sampler chain installs the stages in
the fixed order temperature → top-k → top-p → min-p → penalties →
(mirostat v1 or v2, mutually exclusive, present exactly when the stored
mirostat mode is 1 resp. 2) → final distribution-sampling stage last. -/
theorem c5_chain_order_amended :
    ∀ (o : Option GenOptions) (s : LlamaState), ∃ ms,
      (apply_options o s).2
        = [Stage.temp, Stage.topK, Stage.topP, Stage.minP, Stage.penalties]
            ++ ms ++ [Stage.dist]
      ∧ (ms = [] ∨ ms = [Stage.mirostatV1] ∨ ms = [Stage.mirostatV2])
      ∧ (ms = [Stage.mirostatV1] ↔ (apply_options o s).1.mirostat = 1)
      ∧ (ms = [Stage.mirostatV2] ↔ (apply_options o s).1.mirostat = 2) := by
  intro o s
  rw [apply_options_chain]
  unfold buildChain
  by_cases h1 : (apply_options o s).1.mirostat = 1
  · refine ⟨[Stage.mirostatV1], ?_, ?_, ?_, ?_⟩
    · rw [if_pos h1]
    · simp
    · simp [h1]
    · simp [h1]
  · rw [if_neg h1]
    by_cases h2 : (apply_options o s).1.mirostat = 2
    · refine ⟨[Stage.mirostatV2], ?_, ?_, ?_, ?_⟩
      · rw [if_pos h2]
      · simp
      · simp [h1, h2]
      · simp [h2]
    · refine ⟨[], ?_, ?_, ?_, ?_⟩
      · rw [if_neg h2]
      · simp
      · simp [h1]
      · simp [h2]

/-- C8: after any configure call that supplies an options dictionary,
every clamped field lies in its documented range — temperature in
[0, 2], top_k at least 1, top_p and min_p in [0, 1], repeat_penalty
non-negative (a negative input is reset to 1), n_predict at least -1 —
and the concrete out-of-range inputs behave as documented: temperature 5
stores 2, top_k 0 stores 1, repeat_penalty -1 stores 1, num_predict -5
stores -1. -/
theorem c8_clamp_ranges :
    (∀ (o : GenOptions) (s : LlamaState),
      0 ≤ (apply_options (some o) s).1.temp ∧ (apply_options (some o) s).1.temp ≤ 2
      ∧ 1 ≤ (apply_options (some o) s).1.topK
      ∧ 0 ≤ (apply_options (some o) s).1.topP ∧ (apply_options (some o) s).1.topP ≤ 1
      ∧ 0 ≤ (apply_options (some o) s).1.minP ∧ (apply_options (some o) s).1.minP ≤ 1
      ∧ 0 ≤ (apply_options (some o) s).1.repeatPenalty
      ∧ -1 ≤ (apply_options (some o) s).1.nPredict)
    ∧ (apply_options (some { temperature := some 5 }) defaultState).1.temp = 2
    ∧ (apply_options (some { top_k := some 0 }) defaultState).1.topK = 1
    ∧ (apply_options (some { repeat_penalty := some (-1) }) defaultState).1.repeatPenalty = 1
    ∧ (apply_options (some { num_predict := some (-5) }) defaultState).1.nPredict = -1 := by
  refine ⟨fun o s => ?_, by decide, by decide, by decide, by decide⟩
  exact ⟨(clampTemp_mem _).1, (clampTemp_mem _).2, clampTopK_mem _,
    (clampUnit_mem _).1, (clampUnit_mem _).2, (clampUnit_mem _).1, (clampUnit_mem _).2,
    clampRepeat_mem _, clampNPredict_mem _⟩

/-- C9: in a raw-prompt generation call, when the session position is 0
and a non-empty system message is supplied, the text handed to the
tokenizer is exactly `system ++ "\n\n" ++ prompt`; when the position is
positive the supplied system message is ignored and the prompt alone is
tokenized. -/
theorem c9_system_prompt :
    (∀ sm prompt, 0 < sm.length →
      build_full_prompt (some sm) 0 prompt = sm ++ "\n\n" ++ prompt)
    ∧ (∀ sm prompt n, 0 < n → build_full_prompt (some sm) n prompt = prompt)
    ∧ (∀ prompt n, build_full_prompt none n prompt = prompt) := by
  refine ⟨fun sm prompt h => ?_, fun sm prompt n hn => ?_, fun prompt n => rfl⟩
  · simp only [build_full_prompt]
    rw [if_pos ⟨h, trivial⟩]
  · simp only [build_full_prompt]
    rw [if_neg]
    rintro ⟨-, h0⟩
    omega

/-- C10: the generation loop accepts at most `n_predict` tokens when the
configured `n_predict` is positive and at most the hard default cap 4096
otherwise (including -1 = unbounded), and never more than the remaining
context capacity; the fueled loop is structurally terminating within that
budget. -/
theorem c10_token_budget :
    ∀ (B : Backend) (s : LlamaState),
      (run_inference B s).accepted
        ≤ min (if 0 < s.nPredict then s.nPredict.toNat else 4096) (s.nCtx - s.nPast) := by
  intro B s
  have h1 := genLoop_accepted_le_fuel B
    (if 0 < s.nPredict then s.nPredict.toNat else 4096) s [] [] 0 0
  have h2 := genLoop_accepted_le_ctx B
    (if 0 < s.nPredict then s.nPredict.toNat else 4096) s [] [] 0 0
  refine Nat.le_min.mpr ⟨?_, ?_⟩
  · simp only [run_inference]
    omega
  · simp only [run_inference]
    omega

/-- C4 amended: a failed decode surfaces a decode-failure error
(`TCL_ERROR`), but the position field has already been advanced for the
tokens of the failed batch before `llama_decode` runs and is not rolled
back: a generation-step decode failure leaves the position at its initial
value plus the accepted tokens plus one (the failed token), and a failed
ingestion decode leaves it advanced by the whole batch; only the
context-overflow rejection (checked before submission) leaves position
unchanged. -/
theorem c4_position_decode_amended :
    (∀ (B : Backend) (s : LlamaState),
      (run_inference B s).state.nPast
        = s.nPast + (run_inference B s).accepted
          + (if (run_inference B s).stop = StopReason.decodeFail then 1 else 0))
    ∧ (∀ (B : Backend) (s : LlamaState),
        (run_inference B s).stop = StopReason.decodeFail → (run_inference B s).ok = false)
    ∧ (∀ (dok : Bool) (nTok : Nat) (s : LlamaState),
        (ingest dok nTok s).2.nPast
          = if s.nCtx ≤ s.nPast + nTok then s.nPast else s.nPast + nTok)
    ∧ (∀ (nTok : Nat) (s : LlamaState), (ingest false nTok s).1 = false) := by
  refine ⟨fun B s => ?_, fun B s h => ?_, fun dok nTok s => ?_, fun nTok s => ?_⟩
  · have h := (genLoop_nPast B
      (if 0 < s.nPredict then s.nPredict.toNat else 4096) s [] [] 0 0).2
    simp only [run_inference]
    by_cases hd : (genLoop B (if 0 < s.nPredict then s.nPredict.toNat else 4096)
        s [] [] 0 0).stop = StopReason.decodeFail
    · rw [if_pos hd] at h ⊢; omega
    · rw [if_neg hd] at h ⊢; omega
  · have hiff := genLoop_ok_iff B
      (if 0 < s.nPredict then s.nPredict.toNat else 4096) s [] [] 0 0
    simp only [run_inference] at h ⊢
    exact hiff.mpr (Or.inr h)
  · unfold ingest
    by_cases h : s.nCtx ≤ s.nPast + nTok
    · rw [if_pos h, if_pos h]
    · rw [if_neg h, if_neg h]
      cases dok <;> rfl
  · unfold ingest
    by_cases h : s.nCtx ≤ s.nPast + nTok
    · rw [if_pos h]
    · rw [if_neg h]
      rfl

/-- C6 counterexample: a callback that fails on every invocation, in a run
whose only emission point is the tier-3 marker emit.  The claim demands
that the loop abort and the call surface the failure; the code ignores the
callback's return value there (line 295) and the call completes with
`TCL_OK` after delivering the fragment to the failing callback. -/
theorem c6_counterexample :
    (run_inference { mkBackend [asciiBytes "Hello ", asciiBytes "<|eot_id|>"] with
        useCb := true, cbOk := fun _ => false }
        { defaultState with nPredict := 8 }).ok = true
    ∧ (run_inference { mkBackend [asciiBytes "Hello ", asciiBytes "<|eot_id|>"] with
        useCb := true, cbOk := fun _ => false }
        { defaultState with nPredict := 8 }).stop = StopReason.textTag
    ∧ (run_inference { mkBackend [asciiBytes "Hello ", asciiBytes "<|eot_id|>"] with
        useCb := true, cbOk := fun _ => false }
        { defaultState with nPredict := 8 }).sink = [asciiBytes "Hello "]
    ∧ ({ mkBackend [asciiBytes "Hello ", asciiBytes "<|eot_id|>"] with
        useCb := true, cbOk := fun _ => false } : Backend).useCb = true
    ∧ ∀ i, ({ mkBackend [asciiBytes "Hello ", asciiBytes "<|eot_id|>"] with
        useCb := true, cbOk := fun _ => false } : Backend).cbOk i = false := by
  refine ⟨by decide, by decide, by decide, rfl, fun i => rfl⟩

/-- C6 amended: a sink-callback failure aborts the call and surfaces the
failure only when it happens at the mid-loop margin flush (lines 318-321);
failures at the tier-3 marker emit and at the final flush are ignored.  In
particular, a callback that succeeds on its first invocation and fails on
its second — both mid-loop flushes — aborts the call with exactly one
successful fragment delivery, the second fragment handed to the failing
callback, and no further token decoded (`accepted = 1`, position advanced
once); and across all runs, the call returns `TCL_ERROR` exactly for a
mid-loop callback failure or a decode failure. -/
theorem c6_sink_failure_amended :
    ((run_inference { mkBackend [List.replicate 25 97, List.replicate 25 98] with
        useCb := true, cbOk := fun i => i == 0 }
        { defaultState with nPredict := 8 }).ok = false
      ∧ (run_inference { mkBackend [List.replicate 25 97, List.replicate 25 98] with
          useCb := true, cbOk := fun i => i == 0 }
          { defaultState with nPredict := 8 }).stop = StopReason.cbFail
      ∧ (run_inference { mkBackend [List.replicate 25 97, List.replicate 25 98] with
          useCb := true, cbOk := fun i => i == 0 }
          { defaultState with nPredict := 8 }).sink
          = [List.replicate 5 97, List.replicate 20 97 ++ List.replicate 5 98]
      ∧ (run_inference { mkBackend [List.replicate 25 97, List.replicate 25 98] with
          useCb := true, cbOk := fun i => i == 0 }
          { defaultState with nPredict := 8 }).accepted = 1
      ∧ (run_inference { mkBackend [List.replicate 25 97, List.replicate 25 98] with
          useCb := true, cbOk := fun i => i == 0 }
          { defaultState with nPredict := 8 }).state.nPast = 1
      ∧ ({ mkBackend [List.replicate 25 97, List.replicate 25 98] with
          useCb := true, cbOk := fun i => i == 0 } : Backend).cbOk 0 = true
      ∧ ({ mkBackend [List.replicate 25 97, List.replicate 25 98] with
          useCb := true, cbOk := fun i => i == 0 } : Backend).cbOk 1 = false)
    ∧ (∀ (B : Backend) (s : LlamaState),
        (run_inference B s).ok = false ↔
          ((run_inference B s).stop = StopReason.cbFail ∨
           (run_inference B s).stop = StopReason.decodeFail)) := by
  refine ⟨by decide, fun B s => ?_⟩
  have h := genLoop_ok_iff B
    (if 0 < s.nPredict then s.nPredict.toNat else 4096) s [] [] 0 0
  simp only [run_inference]
  exact h

/-- C7 counterexample: the loop exhausts its budget with the buffer
holding `"<|endof"` — a proper, non-empty prefix of the known marker
`"<|endoftext|>"`.  The claim demands that the remainder be silently
dropped; the code's final flush tests only the four literals `"<end"`,
`"<start"`, `"<|im"`, `"<|eot"` (line 347), none of which occurs here, so
the truncated marker is delivered to the sink. -/
theorem c7_counterexample :
    asciiBytes "<|endof" ++ asciiBytes "text|>" = tag_endoftext
    ∧ asciiBytes "<|endof" ≠ []
    ∧ (run_inference (mkBackend [asciiBytes "<|endof"])
        { defaultState with nPredict := 1 }).stop = StopReason.budget
    ∧ (run_inference (mkBackend [asciiBytes "<|endof"])
        { defaultState with nPredict := 1 }).ok = true
    ∧ (run_inference (mkBackend [asciiBytes "<|endof"])
        { defaultState with nPredict := 1 }).sink = [asciiBytes "<|endof"] := by
  decide

theorem finalFlush_sink (s : LlamaState) (buffer : List Nat) (sink : List (List Nat))
    (pCnt : Nat) (reason : StopReason) :
    (finalFlush s buffer sink pCnt reason).sink
      = if 0 < buffer.length then
          (if !((strFind buffer ptag_end).isSome || (strFind buffer ptag_start).isSome
              || (strFind buffer ptag_im).isSome || (strFind buffer ptag_eot).isSome)
           then sink ++ [buffer] else sink)
        else sink := by
  rfl

theorem sink_append_ne (sink : List (List Nat)) (x : List Nat) :
    sink ++ [x] ≠ sink := by
  intro h
  have := congrArg List.length h
  simp at this

/-- C7 amended: on a loop exit without a tier-3 marker match, the
non-empty leftover buffer is delivered if and only if it contains none of
the four literal fragments `"<end"`, `"<start"`, `"<|im"`, `"<|eot"` as a
substring.  Each of these four is a proper non-empty prefix of one of the
known markers, but no fragment of `"<|endoftext|>"` is tested, so a
truncated `"<|endoftext|>"` is delivered rather than dropped. -/
theorem c7_final_flush_amended :
    (∀ (s : LlamaState) (buffer : List Nat) (sink : List (List Nat)) (pCnt : Nat)
        (reason : StopReason),
      ((finalFlush s buffer sink pCnt reason).sink = sink ++ [buffer] ↔
        (buffer ≠ [] ∧ ¬(occursIn buffer ptag_end ∨ occursIn buffer ptag_start ∨
          occursIn buffer ptag_im ∨ occursIn buffer ptag_eot)))
      ∧ ((finalFlush s buffer sink pCnt reason).sink = sink ++ [buffer] ∨
          (finalFlush s buffer sink pCnt reason).sink = sink))
    ∧ (∃ t, t ≠ [] ∧ ptag_end ++ t = tag_end_of_turn)
    ∧ (∃ t, t ≠ [] ∧ ptag_start ++ t = tag_start_of_turn)
    ∧ (∃ t, t ≠ [] ∧ ptag_im ++ t = tag_im_end)
    ∧ (∃ t, t ≠ [] ∧ ptag_eot ++ t = tag_eot_id) := by
  refine ⟨fun s buffer sink pCnt reason => ?_,
    ⟨asciiBytes "_of_turn>", by decide⟩, ⟨asciiBytes "_of_turn>", by decide⟩,
    ⟨asciiBytes "_end|>", by decide⟩, ⟨asciiBytes "_id|>", by decide⟩⟩
  rw [finalFlush_sink]
  by_cases hb : 0 < buffer.length
  · rw [if_pos hb]
    cases hbig : ((strFind buffer ptag_end).isSome || (strFind buffer ptag_start).isSome
        || (strFind buffer ptag_im).isSome || (strFind buffer ptag_eot).isSome) with
    | false =>
      rw [if_pos (by decide : (!false) = true)]
      simp only [Bool.or_eq_false_iff] at hbig
      obtain ⟨⟨⟨he, hs'⟩, hi⟩, ho⟩ := hbig
      refine ⟨⟨fun _ => ⟨?_, ?_⟩, fun _ => rfl⟩, Or.inl rfl⟩
      · intro hbe
        rw [hbe] at hb
        simp at hb
      · rintro (hocc | hocc | hocc | hocc) <;> rw [occursIn_iff] at hocc
        · rw [he] at hocc; exact Bool.noConfusion hocc
        · rw [hs'] at hocc; exact Bool.noConfusion hocc
        · rw [hi] at hocc; exact Bool.noConfusion hocc
        · rw [ho] at hocc; exact Bool.noConfusion hocc
    | true =>
      rw [if_neg (by decide : ¬((!true) = true))]
      refine ⟨⟨fun h => absurd h.symm (sink_append_ne sink buffer), fun hr => ?_⟩,
        Or.inr rfl⟩
      exfalso
      apply hr.2
      simp only [Bool.or_eq_true] at hbig
      rcases hbig with ((he | hs') | hi) | ho
      · exact Or.inl (occursIn_iff.mpr he)
      · exact Or.inr (Or.inl (occursIn_iff.mpr hs'))
      · exact Or.inr (Or.inr (Or.inl (occursIn_iff.mpr hi)))
      · exact Or.inr (Or.inr (Or.inr (occursIn_iff.mpr ho)))
  · rw [if_neg hb]
    refine ⟨⟨fun h => absurd h.symm (sink_append_ne sink buffer), fun hr => ?_⟩, Or.inr rfl⟩
    exfalso
    apply hr.1
    cases buffer with
    | nil => rfl
    | cons a l => simp at hb

theorem scanTags_of_single :
    ∀ (ts : List (List Nat)) (buf m : List Nat) (p : Nat),
      m ∈ ts → strFind buf m = some p →
      (∀ m', m' ∈ ts → m' ≠ m → strFind buf m' = none) →
      scanTags ts buf = some (p, m) := by
  intro ts
  induction ts with
  | nil => intro buf m p hm _ _; simp at hm
  | cons t ts' ih =>
    intro buf m p hm hf hothers
    by_cases ht : t = m
    · subst ht
      simp [scanTags, hf]
    · have hnone : strFind buf t = none := hothers t (List.mem_cons_self t ts') ht
      have hm' : m ∈ ts' := by
        rcases List.mem_cons.mp hm with h | h
        · exact absurd h.symm ht
        · exact h
      simp only [scanTags, hnone]
      exact ih buf m p hm' hf fun m'' hmm hne => hothers m'' (List.mem_cons_of_mem t hmm) hne

/-- C2 amended: the tier-3 scan emits the buffer prefix strictly before
the occurrence found for the *first marker in the fixed scan order* that
is present, not before the earliest-positioned occurrence among all
markers present.  In particular, whenever the buffer contains occurrences
of exactly one of the five known markers, the emitted text is exactly the
substring strictly before that marker's earliest occurrence, trimmed back
to a complete UTF-8 character boundary (and withheld entirely when the
trimmed prefix is empty); with two different markers present, bytes of an
earlier-positioned but later-scanned marker can be emitted
(`c2_counterexample`). -/
theorem c2_scan_order_amended (buf m : List Nat) (hm : m ∈ tagsList)
    (hocc : occursIn buf m)
    (honly : ∀ m', m' ∈ tagsList → m' ≠ m → ¬ occursIn buf m') :
    ∃ p, (buf.drop p).take m.length = m ∧ p + m.length ≤ buf.length
      ∧ (∀ q, q < p → (buf.drop q).take m.length ≠ m)
      ∧ tier3Emit buf = utf8SafeEmit (buf.take p) := by
  have hsome : (strFind buf m).isSome = true := occursIn_iff.mp hocc
  cases hf : strFind buf m with
  | none => rw [hf] at hsome; exact Bool.noConfusion hsome
  | some p =>
    obtain ⟨-, hlen, hmatch, hmin⟩ := strFindAux_some hf
    have hnone : ∀ m', m' ∈ tagsList → m' ≠ m → strFind buf m' = none := fun m' hm' hne =>
      strFind_eq_none_of_not_occursIn (honly m' hm' hne)
    have hscan : scanTags tagsList buf = some (p, m) :=
      scanTags_of_single tagsList buf m p hm hf hnone
    refine ⟨p, hmatch, hlen, fun q hq => hmin q (Nat.zero_le q) hq, ?_⟩
    simp only [tier3Emit, hscan, utf8SafeEmit]

/-- Witness for `c2_scan_order_amended` at the concrete buffer
`"ab<|eot_id|>cd"`, whose only marker occurrence is `"<|eot_id|>"` at
position 2. -/
theorem c2_scan_order_amended_witness :
    ∃ p, ((asciiBytes "ab<|eot_id|>cd").drop p).take tag_eot_id.length = tag_eot_id
      ∧ p + tag_eot_id.length ≤ (asciiBytes "ab<|eot_id|>cd").length
      ∧ (∀ q, q < p →
          ((asciiBytes "ab<|eot_id|>cd").drop q).take tag_eot_id.length ≠ tag_eot_id)
      ∧ tier3Emit (asciiBytes "ab<|eot_id|>cd")
          = utf8SafeEmit ((asciiBytes "ab<|eot_id|>cd").take p) :=
  c2_scan_order_amended (asciiBytes "ab<|eot_id|>cd") tag_eot_id (by decide)
    ⟨asciiBytes "ab", asciiBytes "cd", by decide⟩
    (by
      intro m' hm' hne
      rw [occursIn_iff]
      simp only [tagsList, List.mem_cons, List.not_mem_nil, or_false] at hm'
      rcases hm' with rfl | rfl | rfl | rfl | rfl
      · decide
      · decide
      · decide
      · exact absurd rfl hne
      · decide)
